import Mathlib

/-!
Shallow embedding of the XAUUSD trading bot (`src/bot.py`): the Wilder-RSI and
ATR indicator steps of `get_market_data`, the signal evaluation `get_signal`,
the risk-based lot sizing `calculate_lot_size`, and the stop-loss management
`manage_positions`.

Modelling conventions: Python floats are exact rationals; a float division
whose result would be NaN (pandas `0/0`) or a Python `ZeroDivisionError`
is modelled with `Option` (`none`); `round(x, 2)` is round-half-to-even at
two decimals, as in Python; the per-index indicator recurrences of the pandas
series are functions of the candle index.
-/

-- ======== configuration constants (bot.py, CONFIGURATION block) ========

def ATR_MULTIPLIER_SL : ℚ := 3/2

def ATR_MULTIPLIER_TP : ℚ := 2

def RSI_BUY_MIN : ℚ := 50

def RSI_BUY_MAX : ℚ := 70

def RSI_SELL_MAX : ℚ := 50

def RSI_SELL_MIN : ℚ := 30

def RISK_PERCENT : ℚ := 1

def BREAK_EVEN_ATR_MULT : ℚ := 1

def TRAILING_ATR_MULT : ℚ := 1

-- ======== external data snapshots ========

/-- account snapshot: the only field `calculate_lot_size` reads is `balance`. -/
structure AccountInfo where
  balance : ℚ
deriving DecidableEq

/-- symbol snapshot: the fields read by `calculate_lot_size` and
`manage_positions`. -/
structure SymbolInfo where
  trade_tick_value : ℚ
  trade_tick_size : ℚ
  volume_min : ℚ
  point : ℚ
deriving DecidableEq

/-- current quote, as returned by `symbol_info_tick`. -/
structure Tick where
  bid : ℚ
  ask : ℚ
deriving DecidableEq

-- ======== Python rounding ========

/-- Python `round` to an integer: round half to even. -/
def round_half_even (x : ℚ) : ℤ :=
  if x - ⌊x⌋ < 1/2 then ⌊x⌋
  else if 1/2 < x - ⌊x⌋ then ⌊x⌋ + 1
  else if ⌊x⌋ % 2 = 0 then ⌊x⌋ else ⌊x⌋ + 1

/-- Python `round(x, 2)`. -/
def round2 (x : ℚ) : ℚ := (round_half_even (x * 100) : ℚ) / 100

-- ======== calculate_lot_size (bot.py lines 169-191) ========

/-- lot sizing.  `none` models the `ZeroDivisionError` raised when the divisor
`sl_distance / tick_size * tick_value` is zero (which, after the explicit
tick checks, happens exactly when `atr = 0`). -/
def calculate_lot_size (account_info : Option AccountInfo)
    (symbol_info : Option SymbolInfo) (atr : ℚ) : Option ℚ :=
  match account_info, symbol_info with
  | none, _ => some 0.01
  | _, none => some 0.01
  | some acc, some sym =>
    let risk_amount := acc.balance * (RISK_PERCENT / 100)
    let sl_distance := atr * ATR_MULTIPLIER_SL
    let tick_value := sym.trade_tick_value
    let tick_size := sym.trade_tick_size
    if tick_value = 0 ∨ tick_size = 0 then some 0.01
    else if sl_distance / tick_size * tick_value = 0 then none
    else some (round2 (max (risk_amount / (sl_distance / tick_size * tick_value))
      sym.volume_min))

-- ======== get_signal (bot.py lines 78-121) ========

/-- indicator values of the last completed candle of one timeframe
(`df.iloc[-2]`), the only data `get_signal` reads. -/
structure Snapshot where
  ema_fast : ℚ
  ema_slow : ℚ
  rsi : ℚ
  atr : ℚ
deriving DecidableEq

inductive Direction where
  | BUY
  | SELL
  | NONE
deriving DecidableEq

/-- conjunction of `trend_buy`, `entry_buy` and `rsi_buy` of `get_signal`. -/
def buy_conditions (m5 m15 : Snapshot) : Bool :=
  decide (m15.ema_slow < m15.ema_fast) && decide (m5.ema_slow < m5.ema_fast)
    && decide (RSI_BUY_MIN < m5.rsi) && decide (m5.rsi < RSI_BUY_MAX)

/-- conjunction of `trend_sell`, `entry_sell` and `rsi_sell` of `get_signal`. -/
def sell_conditions (m5 m15 : Snapshot) : Bool :=
  decide (m15.ema_fast < m15.ema_slow) && decide (m5.ema_fast < m5.ema_slow)
    && decide (RSI_SELL_MIN < m5.rsi) && decide (m5.rsi < RSI_SELL_MAX)

/-- signal evaluation; `none` inputs model a failed candle fetch
(`get_market_data` returning `None`). -/
def get_signal (df_m5 df_m15 : Option Snapshot) : Direction × ℚ :=
  match df_m5, df_m15 with
  | some m5, some m15 =>
    if buy_conditions m5 m15 then (Direction.BUY, m5.atr)
    else if sell_conditions m5 m15 then (Direction.SELL, m5.atr)
    else (Direction.NONE, 0)
  | _, _ => (Direction.NONE, 0)

-- ======== manage_positions (bot.py lines 193-285) ========

/-- the two MT5 position types that occur in `positions_get` results. -/
inductive OrderType where
  | BUY
  | SELL
deriving DecidableEq

/-- open-position snapshot: the fields `manage_positions` reads. -/
structure Position where
  ticket : ℕ
  price_open : ℚ
  sl : ℚ
  tp : ℚ
  type : OrderType
deriving DecidableEq

/-- a `TRADE_ACTION_SLTP` request as built by `manage_positions`. -/
structure Request where
  position : ℕ
  sl : ℚ
  tp : ℚ
deriving DecidableEq

/-- `tick.bid if position_type == mt5.ORDER_TYPE_BUY else tick.ask`. -/
def current_price_of (bid ask : ℚ) (pos : Position) : ℚ :=
  if pos.type = OrderType.BUY then bid else ask

/-- the BREAK-EVEN block of `manage_positions`, for one position; returns the
emitted stop-loss update requests (none or exactly one). -/
def break_even_step (point atr current_price : ℚ) (pos : Position) :
    List Request :=
  let buffer := point * 10
  let break_even_trigger := atr * BREAK_EVEN_ATR_MULT
  if break_even_trigger ≤ |current_price - pos.price_open| then
    let new_sl :=
      if pos.type = OrderType.BUY then
        if pos.sl < pos.price_open then pos.price_open + buffer else pos.sl
      else
        if pos.price_open < pos.sl then pos.price_open - buffer else pos.sl
    if new_sl ≠ pos.sl then [⟨pos.ticket, new_sl, pos.tp⟩] else []
  else []

/-- the TRAILING STOP block of `manage_positions`, for one position; note that
it compares against the stop-loss read at the start of the loop body, exactly
as the source does. -/
def trailing_step (atr current_price : ℚ) (pos : Position) : List Request :=
  let trail_distance := atr * TRAILING_ATR_MULT
  if pos.type = OrderType.BUY then
    if pos.price_open ≤ pos.sl then
      let new_sl := current_price - trail_distance
      if pos.sl < new_sl then [⟨pos.ticket, new_sl, pos.tp⟩] else []
    else []
  else
    if pos.sl ≤ pos.price_open then
      let new_sl := current_price + trail_distance
      if new_sl < pos.sl then [⟨pos.ticket, new_sl, pos.tp⟩] else []
    else []

/-- one iteration of the `for pos in positions` loop: the requests emitted for
one position. -/
def manage_position (point atr bid ask : ℚ) (pos : Position) : List Request :=
  let current_price := current_price_of bid ask pos
  break_even_step point atr current_price pos ++
    trailing_step atr current_price pos

/-- the whole `manage_positions` call: early returns on no positions, missing
symbol info or tick, missing ATR or zero ATR; otherwise the concatenation of
the per-position requests. -/
def manage_positions (symbol_info : Option SymbolInfo) (tick : Option Tick)
    (atr : Option ℚ) (positions : List Position) : List Request :=
  match positions with
  | [] => []
  | _ =>
    match symbol_info, tick, atr with
    | some sym, some t, some a =>
      if a = 0 then []
      else positions.flatMap (fun pos => manage_position sym.point a t.bid t.ask pos)
    | _, _, _ => []

/-- effect of the external executor applying the emitted `TRADE_ACTION_SLTP`
requests to the position, in order. -/
def apply_requests (pos : Position) (reqs : List Request) : Position :=
  reqs.foldl (fun p r => { p with sl := r.sl, tp := r.tp }) pos

/-- market context of one `manage_positions` call. -/
structure CallCtx where
  point : ℚ
  atr : ℚ
  bid : ℚ
  ask : ℚ
deriving DecidableEq

/-- successive `manage_positions` calls acting on one position: each call's
emitted requests are applied before the next call reads the position back. -/
def run_manage (pos : Position) (calls : List CallCtx) : Position :=
  calls.foldl
    (fun p c => apply_requests p (manage_position c.point c.atr c.bid c.ask p))
    pos

-- ======== indicator steps of get_market_data (bot.py lines 52-68) ========

/-- one fetched candle; the columns the RSI and ATR computations read. -/
structure Candle where
  high : ℚ
  low : ℚ
  close : ℚ
deriving DecidableEq

/-- `df['close'].diff()`: `none` at index 0 models the leading NaN. -/
def change (close : ℕ → ℚ) (i : ℕ) : Option ℚ :=
  if i = 0 then none else some (close i - close (i - 1))

/-- `change.where(change > 0, 0.0)`: NaN compares false, so index 0 maps
to `0.0`. -/
def gain (close : ℕ → ℚ) (i : ℕ) : ℚ :=
  match change close i with
  | none => 0
  | some d => if 0 < d then d else 0

/-- `-change.where(change < 0, 0.0)`. -/
def loss (close : ℕ → ℚ) (i : ℕ) : ℚ :=
  match change close i with
  | none => 0
  | some d => if d < 0 then -d else 0

/-- `ewm(alpha=1/14, adjust=False).mean()`: seeded with the first value, then
`y = (1 - alpha) * y_prev + alpha * x`. -/
def ewm_wilder (x : ℕ → ℚ) : ℕ → ℚ
  | 0 => x 0
  | i + 1 => (1 - 1/14) * ewm_wilder x i + (1/14) * x (i + 1)

def avg_gain (close : ℕ → ℚ) (i : ℕ) : ℚ := ewm_wilder (gain close) i

def avg_loss (close : ℕ → ℚ) (i : ℕ) : ℚ := ewm_wilder (loss close) i

/-- the `rsi` column value at index `i`, with the float semantics of
`100 - 100 / (1 + avg_gain / avg_loss)`: with `min_periods=14` the first 13
outputs are masked (`none`); if `avg_loss ≠ 0` the value is the plain
formula; if `avg_loss = 0` and `avg_gain ≠ 0` the quotient is infinite and
the value collapses to 100; if both are 0 the quotient is NaN and the value
is NaN (`none`). -/
def rsi (close : ℕ → ℚ) (i : ℕ) : Option ℚ :=
  if i < 13 then none
  else if avg_loss close i ≠ 0 then
    some (100 - 100 / (1 + avg_gain close i / avg_loss close i))
  else if avg_gain close i ≠ 0 then some 100
  else none

/-- the `tr` column: row maximum of `h-l`, `h-pc`, `l-pc` with NaN skipped,
so at index 0 (where `close.shift(1)` is NaN) it is `high - low` alone. -/
def tr (candles : ℕ → Candle) (i : ℕ) : ℚ :=
  if i = 0 then (candles 0).high - (candles 0).low
  else
    max ((candles i).high - (candles i).low)
      (max |(candles i).high - (candles (i - 1)).close|
        |(candles i).low - (candles (i - 1)).close|)

/-- the True Range formula as the specification states it, applicable at
indices that have a previous close. -/
def true_range_spec (candles : ℕ → Candle) (i : ℕ) : ℚ :=
  max ((candles i).high - (candles i).low)
    (max |(candles i).high - (candles (i - 1)).close|
      |(candles i).low - (candles (i - 1)).close|)

/-- `df['tr'].rolling(14).mean()`: NaN (`none`) until 14 samples exist, then
the arithmetic mean of the window `tr[i-13..i]`. -/
def atr (candles : ℕ → Candle) (i : ℕ) : Option ℚ :=
  if i < 13 then none
  else some ((∑ j in Finset.range 14, tr candles (i - j)) / 14)

-- ======== helper lemmas ========

theorem le_round_half_even (x : ℚ) : x - 1/2 ≤ (round_half_even x : ℚ) := by
  have h1 := Int.floor_le x
  have h2 := Int.lt_floor_add_one x
  unfold round_half_even
  split_ifs with a b c <;> push_cast <;> linarith

theorem round_half_even_nonneg (x : ℚ) (hx : 0 ≤ x) : 0 ≤ round_half_even x := by
  have h : (0:ℤ) ≤ ⌊x⌋ := Int.floor_nonneg.mpr hx
  unfold round_half_even
  split_ifs <;> omega

theorem round2_nonneg (x : ℚ) (hx : 0 ≤ x) : 0 ≤ round2 x := by
  have := round_half_even_nonneg (x * 100) (by linarith)
  unfold round2
  positivity

theorem round2_near (x : ℚ) : x - 1/200 ≤ round2 x := by
  have h := le_round_half_even (x * 100)
  unfold round2
  linarith

-- ======== C2 ========

/-- C2 counterexample: with account and symbol info present and nonzero tick
fields, `calculate_lot_size` at `atr = 0` divides by zero
(`risk_amount / 0.0` raises `ZeroDivisionError` in Python, modelled as
`none`), so it is not true that it always returns a number and never
raises. -/
theorem C2_counterexample :
    calculate_lot_size (some ⟨10000⟩) (some ⟨1, 1/100, 1/100, 1/100⟩) 0 =
      none := by
  norm_num [calculate_lot_size, ATR_MULTIPLIER_SL]

/-- C2 (amended): when account or symbol info is missing, or a tick field is
zero, the result is the fallback `0.01`; when all inputs are present, the
tick fields are nonzero and `atr = 0`, the call raises (returns `none`);
otherwise, provided `volume_min ≥ 0`, the result is a value that is
non-negative and at least `volume_min - 1/200` (rounding to two decimals can
land up to `0.005` below `volume_min`, so the exact bound
`result ≥ volume_min` of the original claim does not hold). -/
theorem C2_lot_size_guarantees (account_info : Option AccountInfo)
    (symbol_info : Option SymbolInfo) (atr : ℚ) :
    (account_info = none ∨ symbol_info = none →
      calculate_lot_size account_info symbol_info atr = some 0.01)
    ∧ (∀ acc sym, account_info = some acc → symbol_info = some sym →
        sym.trade_tick_value = 0 ∨ sym.trade_tick_size = 0 →
        calculate_lot_size account_info symbol_info atr = some 0.01)
    ∧ (∀ acc sym, account_info = some acc → symbol_info = some sym →
        sym.trade_tick_value ≠ 0 → sym.trade_tick_size ≠ 0 → atr = 0 →
        calculate_lot_size account_info symbol_info atr = none)
    ∧ (∀ acc sym, account_info = some acc → symbol_info = some sym →
        sym.trade_tick_value ≠ 0 → sym.trade_tick_size ≠ 0 → atr ≠ 0 →
        0 ≤ sym.volume_min →
        ∃ v, calculate_lot_size account_info symbol_info atr = some v ∧
          0 ≤ v ∧ sym.volume_min - 1/200 ≤ v) := by
  refine ⟨?_, ?_, ?_, ?_⟩
  · rintro (rfl | rfl)
    · cases symbol_info <;> rfl
    · cases account_info <;> rfl
  · rintro acc sym rfl rfl h
    simp [calculate_lot_size, h]
  · rintro acc sym rfl rfl htv hts rfl
    simp [calculate_lot_size, htv, hts, ATR_MULTIPLIER_SL]
  · rintro acc sym rfl rfl htv hts ha hvm
    have hdiv : atr * ATR_MULTIPLIER_SL / sym.trade_tick_size *
        sym.trade_tick_value ≠ 0 := by
      apply mul_ne_zero _ htv
      apply div_ne_zero _ hts
      simp [ATR_MULTIPLIER_SL, ha]
    refine ⟨round2 (max (acc.balance * (RISK_PERCENT / 100) /
        (atr * ATR_MULTIPLIER_SL / sym.trade_tick_size *
          sym.trade_tick_value)) sym.volume_min), ?_, ?_, ?_⟩
    · simp only [calculate_lot_size]
      rw [if_neg (by push_neg; exact ⟨htv, hts⟩), if_neg hdiv]
    · exact round2_nonneg _ (le_trans hvm (le_max_right _ _))
    · calc sym.volume_min - 1/200
          ≤ max (acc.balance * (RISK_PERCENT / 100) /
              (atr * ATR_MULTIPLIER_SL / sym.trade_tick_size *
                sym.trade_tick_value)) sym.volume_min - 1/200 := by
            have := le_max_right (acc.balance * (RISK_PERCENT / 100) /
              (atr * ATR_MULTIPLIER_SL / sym.trade_tick_size *
                sym.trade_tick_value)) sym.volume_min
            linarith
        _ ≤ _ := round2_near _

/-- C2 witness: the main branch at the reference inputs. -/
theorem C2_lot_size_guarantees_witness :
    ∃ v, calculate_lot_size (some ⟨10000⟩) (some ⟨1, 1/100, 1/100, 1/100⟩) 2 =
      some v ∧ 0 ≤ v ∧
        (⟨1, 1/100, 1/100, 1/100⟩ : SymbolInfo).volume_min - 1/200 ≤ v :=
  (C2_lot_size_guarantees (some ⟨10000⟩) (some ⟨1, 1/100, 1/100, 1/100⟩)
    2).2.2.2 ⟨10000⟩ ⟨1, 1/100, 1/100, 1/100⟩ rfl rfl (by norm_num)
    (by norm_num) (by norm_num) (by norm_num)

-- ======== C8 ========

/-- C8: at balance 10000, riskPercent 1, atr 2, slMultiplier 1.5, tickValue 1,
tickSize 0.01, minimumVolume 0.01: the risk amount is 100, the stop distance
is 3, the raw lot is 100/300 = 1/3, and the returned lot is exactly 0.33. -/
theorem C8_reference_sizing :
    (10000 * (RISK_PERCENT / 100) : ℚ) = 100
    ∧ (2 * ATR_MULTIPLIER_SL : ℚ) = 3
    ∧ (100 / (3 / (1/100) * 1) : ℚ) = 1/3
    ∧ round2 (max (1/3) (1/100)) = 33/100
    ∧ calculate_lot_size (some ⟨10000⟩) (some ⟨1, 1/100, 1/100, 1/100⟩) 2 =
        some (33/100) := by
  refine ⟨by norm_num [RISK_PERCENT], by norm_num [ATR_MULTIPLIER_SL],
    by norm_num, ?_, ?_⟩
  · norm_num [round2, round_half_even]
  · norm_num [calculate_lot_size, round2, round_half_even, RISK_PERCENT,
      ATR_MULTIPLIER_SL]

-- ======== C9 ========

/-- C9: missing account info, missing symbol info, zero tick value or zero
tick size all yield the fixed fallback lot 0.01, without raising. -/
theorem C9_fallback_lot (atr : ℚ) :
    (∀ sym, calculate_lot_size none sym atr = some 0.01)
    ∧ (∀ acc, calculate_lot_size acc none atr = some 0.01)
    ∧ (∀ acc sym, sym.trade_tick_value = 0 →
        calculate_lot_size (some acc) (some sym) atr = some 0.01)
    ∧ (∀ acc sym, sym.trade_tick_size = 0 →
        calculate_lot_size (some acc) (some sym) atr = some 0.01) := by
  refine ⟨fun sym => ?_, fun acc => ?_, fun acc sym h => ?_, fun acc sym h => ?_⟩
  · cases sym <;> rfl
  · cases acc <;> rfl
  · simp [calculate_lot_size, h]
  · simp [calculate_lot_size, h]

/-- C9 witness: a concrete zero-tick-value symbol. -/
theorem C9_fallback_lot_witness :
    calculate_lot_size (some ⟨10000⟩) (some ⟨0, 1, 1, 1⟩) 2 = some 0.01 :=
  (C9_fallback_lot 2).2.2.1 ⟨10000⟩ ⟨0, 1, 1, 1⟩ rfl

-- ======== C3 ========

/-- C3: the Buy conditions and the Sell conditions are mutually exclusive
(the trend EMA comparisons are opposite strict inequalities), so whenever the
Buy conditions hold, the Sell conditions fail and `get_signal` returns BUY
with the entry ATR — never Buy and Sell for the same input. -/
theorem C3_buy_sell_exclusive (m5 m15 : Snapshot)
    (hb : buy_conditions m5 m15 = true) :
    sell_conditions m5 m15 = false ∧
      get_signal (some m5) (some m15) = (Direction.BUY, m5.atr) := by
  have hb' := hb
  simp only [buy_conditions, Bool.and_eq_true, decide_eq_true_eq] at hb'
  obtain ⟨⟨⟨t1, t2⟩, t3⟩, t4⟩ := hb'
  refine ⟨?_, by simp [get_signal, hb]⟩
  cases hs : sell_conditions m5 m15
  · rfl
  · exfalso
    simp only [sell_conditions, Bool.and_eq_true, decide_eq_true_eq] at hs
    obtain ⟨⟨⟨s1, s2⟩, s3⟩, s4⟩ := hs
    exact absurd t1 (not_lt.mpr (le_of_lt s1))

/-- C3 witness: a bullish snapshot pair with entry RSI 60. -/
theorem C3_buy_sell_exclusive_witness :
    sell_conditions ⟨2, 1, 60, 5⟩ ⟨3, 1, 0, 0⟩ = false ∧
      get_signal (some ⟨2, 1, 60, 5⟩) (some ⟨3, 1, 0, 0⟩) =
        (Direction.BUY, (⟨2, 1, 60, 5⟩ : Snapshot).atr) :=
  C3_buy_sell_exclusive ⟨2, 1, 60, 5⟩ ⟨3, 1, 0, 0⟩
    (by norm_num [buy_conditions, RSI_BUY_MIN, RSI_BUY_MAX])

-- ======== manage_positions lemmas ========

theorem manage_position_mem (point atr bid ask : ℚ) (pos : Position) :
    ∀ req ∈ manage_position point atr bid ask pos,
      req.position = pos.ticket ∧ req.tp = pos.tp := by
  intro req hreq
  rcases pos with ⟨ticket, price_open, sl, tp, ty⟩
  cases ty <;>
    simp only [manage_position, break_even_step, trailing_step,
      current_price_of, List.mem_append] at hreq <;>
    split_ifs at hreq <;>
    simp_all <;>
    rcases hreq with rfl | rfl <;>
    exact ⟨rfl, rfl⟩

theorem manage_position_tightens (point atr bid ask : ℚ) (pos : Position)
    (hp : 0 ≤ point) :
    ∀ req ∈ manage_position point atr bid ask pos,
      (pos.type = OrderType.BUY → pos.sl < req.sl) ∧
        (pos.type = OrderType.SELL → req.sl < pos.sl) := by
  intro req hreq
  rcases pos with ⟨ticket, price_open, sl, tp, ty⟩
  cases ty <;>
    simp only [manage_position, break_even_step, trailing_step,
      current_price_of, List.mem_append] at hreq <;>
    split_ifs at hreq <;>
    simp_all <;>
    linarith

theorem apply_manage_step (point atr bid ask : ℚ) (pos : Position)
    (hp : 0 ≤ point) :
    (apply_requests pos (manage_position point atr bid ask pos)).ticket =
        pos.ticket ∧
      (apply_requests pos (manage_position point atr bid ask pos)).price_open =
        pos.price_open ∧
      (apply_requests pos (manage_position point atr bid ask pos)).type =
        pos.type ∧
      (pos.type = OrderType.BUY →
        pos.sl ≤ (apply_requests pos (manage_position point atr bid ask pos)).sl) ∧
      (pos.type = OrderType.SELL →
        (apply_requests pos (manage_position point atr bid ask pos)).sl ≤ pos.sl) := by
  rcases pos with ⟨ticket, price_open, sl, tp, ty⟩
  cases ty <;>
    simp only [manage_position, break_even_step, trailing_step,
      current_price_of, apply_requests] <;>
    split_ifs <;>
    simp_all [List.foldl] <;>
    linarith

theorem run_manage_mono (pos : Position) (calls : List CallCtx)
    (hc : ∀ c ∈ calls, 0 ≤ c.point) :
    (run_manage pos calls).type = pos.type ∧
      (pos.type = OrderType.BUY → pos.sl ≤ (run_manage pos calls).sl) ∧
      (pos.type = OrderType.SELL → (run_manage pos calls).sl ≤ pos.sl) := by
  induction calls generalizing pos with
  | nil => exact ⟨rfl, fun _ => le_refl _, fun _ => le_refl _⟩
  | cons c cs ih =>
    have hstep := apply_manage_step c.point c.atr c.bid c.ask pos
      (hc c (List.mem_cons_self c cs))
    have hrec := ih
      (apply_requests pos (manage_position c.point c.atr c.bid c.ask pos))
      (fun c' h' => hc c' (List.mem_cons_of_mem c h'))
    have hrun : run_manage pos (c :: cs) =
        run_manage
          (apply_requests pos (manage_position c.point c.atr c.bid c.ask pos))
          cs := rfl
    rw [hrun]
    refine ⟨hrec.1.trans hstep.2.2.1, fun hb => ?_, fun hs => ?_⟩
    · exact le_trans (hstep.2.2.2.1 hb) (hrec.2.1 (hstep.2.2.1.trans hb))
    · exact le_trans (hrec.2.2 (hstep.2.2.1.trans hs)) (hstep.2.2.2.2 hs)

theorem manage_positions_mem (sym : SymbolInfo) (tick : Tick) (oatr : Option ℚ)
    (positions : List Position) :
    ∀ req ∈ manage_positions (some sym) (some tick) oatr positions,
      ∃ p, p ∈ positions ∧ ∃ a, oatr = some a ∧
        req ∈ manage_position sym.point a tick.bid tick.ask p := by
  intro req hreq
  cases positions with
  | nil => simp [manage_positions] at hreq
  | cons q qs =>
    cases oatr with
    | none => simp [manage_positions] at hreq
    | some a =>
      simp only [manage_positions] at hreq
      split_ifs at hreq with hz
      · simp at hreq
      · rw [List.mem_flatMap] at hreq
        obtain ⟨p, hp, hmem⟩ := hreq
        exact ⟨p, hp, a, rfl, hmem⟩

-- ======== C1 ========

/-- C1: every stop-loss update request emitted by `manage_positions` proposes
a strictly tighter stop-loss than the current one of the position it belongs
to (strictly greater for a long, strictly smaller for a short); and across
any sequence of `manage_positions` calls whose emitted requests are applied,
a position's stop-loss never loosens (non-decreasing for a long,
non-increasing for a short).  Broker point sizes are assumed
non-negative. -/
theorem C1_stop_loss_monotone (sym : SymbolInfo) (tick : Tick)
    (oatr : Option ℚ) (positions : List Position) (pos : Position)
    (calls : List CallCtx) (hp : 0 ≤ sym.point)
    (hc : ∀ c ∈ calls, 0 ≤ c.point) :
    (∀ req ∈ manage_positions (some sym) (some tick) oatr positions,
        ∃ p, p ∈ positions ∧ req.position = p.ticket ∧
          (p.type = OrderType.BUY → p.sl < req.sl) ∧
          (p.type = OrderType.SELL → req.sl < p.sl))
    ∧ (pos.type = OrderType.BUY → pos.sl ≤ (run_manage pos calls).sl)
    ∧ (pos.type = OrderType.SELL → (run_manage pos calls).sl ≤ pos.sl) := by
  refine ⟨?_, (run_manage_mono pos calls hc).2.1,
    (run_manage_mono pos calls hc).2.2⟩
  intro req hreq
  obtain ⟨p, hpmem, a, rfl, hmem⟩ :=
    manage_positions_mem sym tick oatr positions req hreq
  have ht := manage_position_tightens sym.point a tick.bid tick.ask p hp req hmem
  have hm := manage_position_mem sym.point a tick.bid tick.ask p req hmem
  exact ⟨p, hpmem, hm.1, ht.1, ht.2⟩

/-- C1 witness: a long position managed through one call. -/
theorem C1_stop_loss_monotone_witness :
    (⟨1, 100, 90, 110, OrderType.BUY⟩ : Position).sl ≤
      (run_manage ⟨1, 100, 90, 110, OrderType.BUY⟩ [⟨1/100, 1, 101, 101⟩]).sl :=
  (C1_stop_loss_monotone ⟨1, 1/100, 1/100, 1/100⟩ ⟨101, 101⟩ (some 1)
    [⟨1, 100, 90, 110, OrderType.BUY⟩] ⟨1, 100, 90, 110, OrderType.BUY⟩
    [⟨1/100, 1, 101, 101⟩] (by norm_num)
    (by intro c hcm
        simp only [List.mem_singleton] at hcm
        subst hcm
        norm_num)).2.1 rfl

-- ======== C5 ========

/-- C5: the break-even step is idempotent: for a position already at
break-even (stop-loss at or beyond the open price on the profit side), the
BREAK-EVEN block of `manage_positions` emits no request, whatever the
current price. -/
theorem C5_break_even_idempotent (point atr current_price : ℚ)
    (pos : Position)
    (hbe_long : pos.type = OrderType.BUY → pos.price_open ≤ pos.sl)
    (hbe_short : pos.type = OrderType.SELL → pos.sl ≤ pos.price_open) :
    break_even_step point atr current_price pos = [] := by
  rcases pos with ⟨ticket, price_open, sl, tp, ty⟩
  cases ty
  · have h := hbe_long rfl
    simp only [break_even_step]
    split_ifs <;> first | rfl | linarith | simp_all
  · have h := hbe_short rfl
    simp only [break_even_step]
    split_ifs <;> first | rfl | linarith | simp_all

/-- C5 witness: a long position whose stop-loss sits exactly at its open
price. -/
theorem C5_break_even_idempotent_witness :
    break_even_step (1/100) 1 101 ⟨1, 100, 100, 110, OrderType.BUY⟩ = [] :=
  C5_break_even_idempotent (1/100) 1 101 ⟨1, 100, 100, 110, OrderType.BUY⟩
    (fun _ => by norm_num) (fun _ => by norm_num)

-- ======== C6 ========

/-- C6: the break-even trigger compares `|current_price - price_open|`, not
the favorable excursion: for a long position not yet at break-even, whenever
that absolute distance reaches `atr * BREAK_EVEN_ATR_MULT` the proposed stop
is `price_open + 10 * point` — including under adverse movement
(`bid < price_open`), in which case the proposed stop-loss lies above the
current price; symmetrically for a short. -/
theorem C6_break_even_absolute_distance (point atr bid ask : ℚ)
    (pos : Position) (hp : 0 ≤ point) :
    (pos.type = OrderType.BUY → pos.sl < pos.price_open →
      atr * BREAK_EVEN_ATR_MULT ≤ |bid - pos.price_open| →
      manage_position point atr bid ask pos =
          [⟨pos.ticket, pos.price_open + point * 10, pos.tp⟩] ∧
        (bid < pos.price_open → bid < pos.price_open + point * 10))
    ∧ (pos.type = OrderType.SELL → pos.price_open < pos.sl →
      atr * BREAK_EVEN_ATR_MULT ≤ |ask - pos.price_open| →
      manage_position point atr bid ask pos =
          [⟨pos.ticket, pos.price_open - point * 10, pos.tp⟩] ∧
        (pos.price_open < ask → pos.price_open - point * 10 < ask)) := by
  rcases pos with ⟨ticket, price_open, sl, tp, ty⟩
  cases ty
  · refine ⟨fun _ hsl htrig => ⟨?_, fun hbid => by linarith⟩,
      fun h => nomatch h⟩
    have hne : price_open + point * 10 ≠ sl := by
      intro e
      linarith
    have hnotbe : ¬ price_open ≤ sl := not_le.mpr hsl
    simp [manage_position, break_even_step, trailing_step, current_price_of,
      htrig, hsl, hne, hnotbe]
  · refine ⟨(fun h => nomatch h),
      fun _ hsl htrig => ⟨?_, fun hask => by linarith⟩⟩
    have hne : price_open - point * 10 ≠ sl := by
      intro e
      linarith
    have hnotbe : ¬ sl ≤ price_open := not_le.mpr hsl
    simp [manage_position, break_even_step, trailing_step, current_price_of,
      htrig, hsl, hne, hnotbe]

/-- C6 witness: a long position in adverse territory (bid one full ATR below
the open) gets its stop moved to `open + 10 points`, above the bid. -/
theorem C6_break_even_absolute_distance_witness :
    manage_position (1/100) 1 99 99 ⟨1, 100, 90, 110, OrderType.BUY⟩ =
        [⟨1, 100 + (1/100) * 10, 110⟩] ∧
      ((99:ℚ) < 100 → (99:ℚ) < 100 + (1/100) * 10) :=
  (C6_break_even_absolute_distance (1/100) 1 99 99
    ⟨1, 100, 90, 110, OrderType.BUY⟩ (by norm_num)).1 rfl (by norm_num)
    (by rw [show (99:ℚ) - 100 = -1 by norm_num, abs_neg, abs_one]
        norm_num [BREAK_EVEN_ATR_MULT])

-- ======== C10 ========

/-- C10: every stop-loss update request emitted by `manage_positions` (break
even or trailing, long or short) carries the position's existing take-profit
unchanged. -/
theorem C10_take_profit_preserved (sym : SymbolInfo) (tick : Tick)
    (oatr : Option ℚ) (positions : List Position) (point atr bid ask : ℚ)
    (pos : Position) :
    (∀ req ∈ manage_position point atr bid ask pos, req.tp = pos.tp)
    ∧ (∀ req ∈ manage_positions (some sym) (some tick) oatr positions,
        ∃ p, p ∈ positions ∧ req.position = p.ticket ∧ req.tp = p.tp) := by
  constructor
  · intro req h
    exact (manage_position_mem point atr bid ask pos req h).2
  · intro req hreq
    obtain ⟨p, hpmem, a, rfl, hmem⟩ :=
      manage_positions_mem sym tick oatr positions req hreq
    have hm := manage_position_mem sym.point a tick.bid tick.ask p req hmem
    exact ⟨p, hpmem, hm.1, hm.2⟩

/-- C10 witness: the break-even request of a long position keeps tp = 110. -/
theorem C10_take_profit_preserved_witness :
    (⟨1, 100 + (1/100) * 10, 110⟩ : Request).tp =
      (⟨1, 100, 90, 110, OrderType.BUY⟩ : Position).tp :=
  (C10_take_profit_preserved ⟨1, 1/100, 1/100, 1/100⟩ ⟨101, 101⟩ (some 1) []
    (1/100) 1 101 101 ⟨1, 100, 90, 110, OrderType.BUY⟩).1
    ⟨1, 100 + (1/100) * 10, 110⟩
    (by have hlist : manage_position (1/100) 1 101 101
            ⟨1, 100, 90, 110, OrderType.BUY⟩ =
            [⟨1, 100 + (1/100) * 10, 110⟩] := by
          simp [manage_position, break_even_step, trailing_step,
            current_price_of, BREAK_EVEN_ATR_MULT, TRAILING_ATR_MULT,
            abs_of_nonneg]
          norm_num
        rw [hlist]
        exact List.mem_singleton.mpr rfl)

-- ======== indicator lemmas ========

theorem gain_nonneg (close : ℕ → ℚ) (i : ℕ) : 0 ≤ gain close i := by
  unfold gain
  cases h : change close i with
  | none => norm_num
  | some d =>
    dsimp only
    split_ifs with hd
    · linarith
    · norm_num

theorem loss_nonneg (close : ℕ → ℚ) (i : ℕ) : 0 ≤ loss close i := by
  unfold loss
  cases h : change close i with
  | none => norm_num
  | some d =>
    dsimp only
    split_ifs with hd
    · linarith
    · norm_num

theorem ewm_wilder_nonneg (x : ℕ → ℚ) (hx : ∀ i, 0 ≤ x i) (i : ℕ) :
    0 ≤ ewm_wilder x i := by
  induction i with
  | zero => simpa [ewm_wilder] using hx 0
  | succ n ih =>
    have h1 : 0 ≤ (1 - 1/14 : ℚ) * ewm_wilder x n :=
      mul_nonneg (by norm_num) ih
    have h2 : 0 ≤ (1/14 : ℚ) * x (n + 1) :=
      mul_nonneg (by norm_num) (hx (n + 1))
    simpa [ewm_wilder] using add_nonneg h1 h2

theorem avg_gain_nonneg (close : ℕ → ℚ) (i : ℕ) : 0 ≤ avg_gain close i :=
  ewm_wilder_nonneg _ (gain_nonneg close) i

theorem avg_loss_nonneg (close : ℕ → ℚ) (i : ℕ) : 0 ≤ avg_loss close i :=
  ewm_wilder_nonneg _ (loss_nonneg close) i

-- ======== C4 ========

/-- C4 counterexample: on a constant close series (at least 14 periods of
history, all prices 5), the Wilder-smoothed average loss at index 13 is 0,
yet the RSI value there is NaN (`none`), not 100: `rs = 0/0` is NaN, so
`100 - 100/(1 + rs)` is NaN as well. -/
theorem C4_counterexample :
    avg_loss (fun _ => (5:ℚ)) 13 = 0 ∧
      rsi (fun _ => (5:ℚ)) 13 ≠ some 100 := by
  constructor
  · norm_num [avg_loss, ewm_wilder, loss, change]
  · have h : rsi (fun _ => (5:ℚ)) 13 = none := by
      norm_num [rsi, avg_loss, avg_gain, ewm_wilder, loss, gain, change]
    simp [h]

/-- C4 (amended): every defined RSI value lies in [0, 100]; when the Wilder
average loss is 0 and the average gain is nonzero, RSI is exactly 100
(no division-by-zero failure); but when average loss and average gain are
both 0 (a completely flat smoothing history) the RSI is undefined (NaN)
rather than 100 — the only departure from the original claim. -/
theorem C4_rsi_bounds (close : ℕ → ℚ) :
    (∀ i v, rsi close i = some v → 0 ≤ v ∧ v ≤ 100)
    ∧ (∀ i, 13 ≤ i → avg_loss close i = 0 → avg_gain close i ≠ 0 →
        rsi close i = some 100)
    ∧ (∀ i, 13 ≤ i → avg_loss close i = 0 → avg_gain close i = 0 →
        rsi close i = none) := by
  refine ⟨?_, ?_, ?_⟩
  · intro i v h
    unfold rsi at h
    split_ifs at h with h1 h2 h3
    · have hlpos : 0 < avg_loss close i :=
        lt_of_le_of_ne (avg_loss_nonneg close i) (Ne.symm h2)
      have hg : 0 ≤ avg_gain close i := avg_gain_nonneg close i
      have hrs : 0 ≤ avg_gain close i / avg_loss close i :=
        div_nonneg hg (le_of_lt hlpos)
      have hle : 100 / (1 + avg_gain close i / avg_loss close i) ≤ 100 :=
        div_le_self (by norm_num) (by linarith)
      have hge : 0 ≤ 100 / (1 + avg_gain close i / avg_loss close i) :=
        div_nonneg (by norm_num) (by linarith)
      obtain rfl := Option.some_inj.mp h
      constructor <;> linarith
    · obtain rfl := Option.some_inj.mp h
      norm_num
  · intro i hi hl hg
    unfold rsi
    rw [if_neg (by omega), if_neg (by simp [hl]), if_pos hg]
  · intro i hi hl hg
    unfold rsi
    rw [if_neg (by omega), if_neg (by simp [hl]), if_neg (by simp [hg])]

/-- C4 witness: one falling step gives RSI 0 (in range); a strictly rising
series has zero average loss, nonzero average gain and RSI 100; a flat
series has both averages zero and an undefined RSI. -/
theorem C4_rsi_bounds_witness :
    ((0:ℚ) ≤ 0 ∧ (0:ℚ) ≤ 100) ∧
      rsi (fun i => (i:ℚ)) 13 = some 100 ∧
      rsi (fun _ => (7:ℚ)) 13 = none :=
  ⟨(C4_rsi_bounds (fun i => if i = 0 then 10 else 5)).1 13 0
      (by norm_num [rsi, avg_gain, avg_loss, ewm_wilder, gain, loss, change]),
    (C4_rsi_bounds (fun i => (i:ℚ))).2.1 13 (by norm_num)
      (by norm_num [avg_loss, ewm_wilder, loss, change])
      (by norm_num [avg_gain, ewm_wilder, gain, change]),
    (C4_rsi_bounds (fun _ => (7:ℚ))).2.2 13 (by norm_num)
      (by norm_num [avg_loss, ewm_wilder, loss, change])
      (by norm_num [avg_gain, ewm_wilder, gain, change])⟩

-- ======== C7 ========

theorem tr_nonneg (candles : ℕ → Candle)
    (hl : ∀ i, (candles i).low ≤ (candles i).high) (i : ℕ) :
    0 ≤ tr candles i := by
  unfold tr
  split_ifs
  · linarith [hl 0]
  · exact le_trans (by linarith [hl i]) (le_max_left _ _)

/-- C7: given well-formed candles (`low ≤ high`), the ATR column is `none`
(NaN) before 14 periods of history exist; from the 14th candle on it is
defined, non-negative, and equal to the arithmetic mean of the last 14 `tr`
values; and from index 14 on — where every window element has a previous
close — it equals exactly the mean of the specification's True Range
`max(high − low, |high − prevClose|, |low − prevClose|)`.  (At index 13 the
window still contains the very first candle, whose True Range has no
previous close and is `high − low` alone, exactly as pandas computes it with
NaN skipped.) -/
theorem C7_atr_mean_of_true_range (candles : ℕ → Candle)
    (hl : ∀ i, (candles i).low ≤ (candles i).high) :
    (∀ i < 13, atr candles i = none)
    ∧ (∀ i, 13 ≤ i → ∃ v, atr candles i = some v ∧ 0 ≤ v ∧
        v = (∑ j in Finset.range 14, tr candles (i - j)) / 14)
    ∧ (∀ i, 14 ≤ i →
        atr candles i =
          some ((∑ j in Finset.range 14,
            true_range_spec candles (i - j)) / 14)) := by
  refine ⟨?_, ?_, ?_⟩
  · intro i hi
    simp [atr, hi]
  · intro i hi
    have hnot : ¬ i < 13 := by omega
    refine ⟨(∑ j in Finset.range 14, tr candles (i - j)) / 14, ?_, ?_, rfl⟩
    · simp [atr, hnot]
    · exact div_nonneg
        (Finset.sum_nonneg fun j _ => tr_nonneg candles hl _) (by norm_num)
  · intro i hi
    have hnot : ¬ i < 13 := by omega
    simp only [atr, hnot, if_false]
    congr 1
    apply congrArg (fun s => s / 14)
    apply Finset.sum_congr rfl
    intro j hj
    rw [Finset.mem_range] at hj
    have hij : ¬ i - j = 0 := by omega
    simp [tr, true_range_spec, hij]

/-- C7 witness: a constant candle series with high 2, low 1. -/
theorem C7_atr_mean_of_true_range_witness :
    ∃ v, atr (fun _ => (⟨2, 1, 3/2⟩ : Candle)) 13 = some v ∧ 0 ≤ v ∧
      v = (∑ j in Finset.range 14,
        tr (fun _ => (⟨2, 1, 3/2⟩ : Candle)) (13 - j)) / 14 :=
  (C7_atr_mean_of_true_range (fun _ => (⟨2, 1, 3/2⟩ : Candle))
    (fun _ => by show (1:ℚ) ≤ 2; norm_num)).2.1 13 (by norm_num)
